import Mathlib

/-!
Verification of the availability-grid summarization engine
(`gaming_availability.py`) against its natural-language specification.

The engine is embedded shallowly:

* Google-Sheets cells become `Cell` (display text plus optional background
  color); rows become `Row`.
* Python dictionaries (used as insertion-ordered string-keyed maps) become
  association lists with overwrite-in-place semantics (`dictInsert`).
* Availability states become the closed enumeration `Status`.
* Color channels become exact rationals.  The source compares
  `math.sqrt` of the sum of squared channel differences; since square root
  is strictly monotone on nonnegative reals, all comparisons in the source
  are equivalent to comparisons of the squared distances used here.
* The one fallible operation — `rowData[0]` on an empty list, which raises
  `IndexError` in Python — is modelled by `Option`: `buildWeekMessage`
  returns `none` exactly when the source raises.
-/

/-- The four availability states of `REFERENCE_COLORS` in the source. -/
inductive Status where
  | available
  | tentative
  | unavailable
  | unknown
deriving DecidableEq, Repr

/-- An RGB color value: `(red, green, blue)` channel intensities. -/
abbrev Color := ℚ × ℚ × ℚ

/-- A `backgroundColor` JSON object: each channel key may be absent. -/
structure BgColor where
  red : Option ℚ
  green : Option ℚ
  blue : Option ℚ
deriving DecidableEq, Repr

/-- A grid cell: `formattedValue` (missing key modelled as `""`, matching the
source's `.get("formattedValue", "")`) and the background color reached by
`cell.get("userEnteredFormat", {}).get("backgroundColor", {})` (a missing
key is modelled as `none`, which the classifier treats like `{}`). -/
structure Cell where
  formattedValue : String
  backgroundColor : Option BgColor
deriving DecidableEq, Repr

/-- A grid row: the `values` list (missing key modelled as `[]`). -/
structure Row where
  values : List Cell
deriving DecidableEq, Repr

/-- The cell used when a list index is in range; never actually produced. -/
def emptyCell : Cell := ⟨"", none⟩

/-- Python `str.strip()`: drop leading and trailing whitespace.  (Defined on
the character list so that it evaluates by kernel reduction; Lean's built-in
`String.trim` is extensionally the same but does not reduce.) -/
def pyStrip (s : String) : String :=
  ⟨((s.data.dropWhile Char.isWhitespace).reverse.dropWhile Char.isWhitespace).reverse⟩

/-- Python `str.lower()`, restricted to ASCII case mapping.  The source only
ever compares lowered text against the ASCII-lowercase-plus-diacritics
literals `"dzień:"`, `"kto"`, `"kto:"`; the embedding lowers A-Z only, so it
agrees with Python except on inputs containing non-ASCII uppercase letters. -/
def pyLower (s : String) : String := ⟨s.data.map Char.toLower⟩

/-- Python `d[k] = v` on an insertion-ordered dict: overwrite in place if the
key is present, else append at the end. -/
def dictInsert {β : Type} (k : String) (v : β) : List (String × β) → List (String × β)
  | [] => [(k, v)]
  | (k', v') :: rest => if k' = k then (k, v) :: rest else (k', v') :: dictInsert k v rest

/-- Python `d.get(k)` as an option. -/
def dictLookup {β : Type} (k : String) : List (String × β) → Option β
  | [] => none
  | (k', v') :: rest => if k' = k then some v' else dictLookup k rest

/-- Python `d.get(k, dflt)` / `d[k]` where the key is known to be present. -/
def dictGetD {β : Type} (k : String) (d : List (String × β)) (dflt : β) : β :=
  (dictLookup k d).getD dflt

/-- Keys of a dict, in order. -/
def dictKeys {β : Type} (d : List (String × β)) : List String := d.map Prod.fst

/-- `normalize_color`: each absent channel defaults to `1.0` (white). -/
def normalize_color (bg : BgColor) : Color :=
  (bg.red.getD 1, bg.green.getD 1, bg.blue.getD 1)

/-- Squared Euclidean distance in RGB space.  The source's `color_distance`
is the square root of this; square root is strictly monotone on nonnegative
reals, so every comparison the source makes between distances is equivalent
to the same comparison between these squared distances. -/
def color_distance_sq (c1 c2 : Color) : ℚ :=
  (c1.1 - c2.1) ^ 2 + (c1.2.1 - c2.2.1) ^ 2 + (c1.2.2 - c2.2.2) ^ 2

/-- `REFERENCE_COLORS`, in the source's (insertion-order) iteration order. -/
def REFERENCE_COLORS : List (Status × Color) :=
  [(Status.available, (0, 1, 0)),
   (Status.tentative, (1, 1, 0)),
   (Status.unavailable, (1, 0, 0)),
   (Status.unknown, (1, 1, 1))]

/-- The reference color associated with a state. -/
def refColor : Status → Color
  | Status.available => (0, 1, 0)
  | Status.tentative => (1, 1, 0)
  | Status.unavailable => (1, 0, 0)
  | Status.unknown => (1, 1, 1)

/-- A `backgroundColor` object holding exactly a state's reference color. -/
def refBg : Status → BgColor
  | Status.available => ⟨some 0, some 1, some 0⟩
  | Status.tentative => ⟨some 1, some 1, some 0⟩
  | Status.unavailable => ⟨some 1, some 0, some 0⟩
  | Status.unknown => ⟨some 1, some 1, some 1⟩

/-- One iteration of the `color_to_status` loop: keep the incumbent unless the
candidate reference is strictly closer (`dist < min_dist`, where the initial
`min_dist` of `float("inf")` is modelled by `none`). -/
def closer (c : Color) (acc : Status × Option ℚ) (sr : Status × Color) : Status × Option ℚ :=
  let dist := color_distance_sq c sr.2
  match acc.2 with
  | none => (sr.1, some dist)
  | some m => if dist < m then (sr.1, some dist) else acc

/-- `color_to_status`: nearest reference color wins; `bg or {}` treats a
missing color object like an empty one. -/
def color_to_status (bg : Option BgColor) : Status :=
  let color := normalize_color (bg.getD ⟨none, none, none⟩)
  (REFERENCE_COLORS.foldl (closer color) (Status.unknown, none)).1

/-- The "all players available" label (source line 115). -/
def allLabel : String := "✅ Wszyscy dostępni! Łałałiła"

/-- The "possible — 2 available, 1 tentative" label (source line 117). -/
def possibleLabel (total_players : ℕ) : String :=
  "⚠️ Granie możliwe, dostępni (2/" ++ toString total_players ++ ", 1 niepewny)"

/-- A player record: name and per-slot status dict. -/
abbrev Player := String × List (String × Status)

/-- The per-slot counts dict of `process_day` (its four fixed keys). -/
structure Counts where
  available : ℕ
  tentative : ℕ
  unavailable : ℕ
  unknown : ℕ
deriving DecidableEq, Repr

/-- `{t: {} for t in times}`: the outer dict, one empty inner dict per slot. -/
def availInit (times : List String) : List (String × List (String × Status)) :=
  times.foldl (fun d t => dictInsert t ([] : List (String × Status)) d) []

/-- The inner double loop of `process_day` for one player:
`for t in times: availability_by_time[t][player_name] = statuses.get(t, "unknown")`. -/
def updPlayer (times : List String) (d : List (String × List (String × Status)))
    (p : Player) : List (String × List (String × Status)) :=
  times.foldl
    (fun d t => dictInsert t (dictInsert p.1 (dictGetD t p.2 Status.unknown) (dictGetD t d [])) d) d

/-- `availability_by_time` after the player loop of `process_day`. -/
def availByTime (times : List String) (players : List Player) :
    List (String × List (String × Status)) :=
  players.foldl (updPlayer times) (availInit times)

/-- `list(availability_by_time[t].values())`. -/
def slotStatuses (times : List String) (players : List Player) (t : String) : List Status :=
  (dictGetD t (availByTime times players) []).map Prod.snd

/-- The `counts` dict for one slot. -/
def slotCounts (times : List String) (players : List Player) (t : String) : Counts :=
  let statuses := slotStatuses times players t
  ⟨statuses.count Status.available, statuses.count Status.tentative,
   statuses.count Status.unavailable, statuses.count Status.unknown⟩

/-- The qualification branch of `process_day` (source lines 114-119). -/
def slotLabel (total_players : ℕ) (c : Counts) : Option String :=
  if c.available = total_players then some allLabel
  else if c.available = 2 ∧ c.tentative = 1 then some (possibleLabel total_players)
  else none

/-- The `results` list of `process_day`: one `(time, summary-or-None)` pair
per entry of `times`, in order. -/
def dayResults (times : List String) (players : List Player) : List (String × Option String) :=
  times.map (fun t => (t, slotLabel players.length (slotCounts times players t)))

/-- The range-compression loop of `process_day` (source lines 122-136).
State: `compressed`, `start`, `prev_summary` as in the source, plus the time
of the element of the previous iteration, which is what `results[i-1][0]`
reads (and, at the final flush, what `results[-1][0]` reads).  The source's
`if not summary` is Python falsiness: `None` or the empty string.  When set,
`start` and `prev_summary` are always `some` of a non-empty string, so
`getD ""` never actually fires. -/
def cLoop (compressed : List (String × String × String)) (start prev lastTime : Option String) :
    List (String × Option String) → List (String × String × String)
  | [] =>
    match prev with
    | some p => compressed ++ [(start.getD "", lastTime.getD "", p)]
    | none => compressed
  | (time, summary) :: rest =>
    if summary = none ∨ summary = some "" then
      match prev with
      | some p => cLoop (compressed ++ [(start.getD "", lastTime.getD "", p)]) none none (some time) rest
      | none => cLoop compressed start prev (some time) rest
    else
      match prev with
      | some p =>
        if summary = some p then cLoop compressed start prev (some time) rest
        else cLoop (compressed ++ [(start.getD "", lastTime.getD "", p)]) (some time) summary (some time) rest
      | none => cLoop compressed (some time) summary (some time) rest

/-- `compressed` as computed by `process_day` from `results`. -/
def compress (results : List (String × Option String)) : List (String × String × String) :=
  cLoop [] none none none results

/-- The message-building loop of `process_day` (source lines 141-148). -/
def formatLines (day_name : String) (compressed : List (String × String × String)) : String :=
  let messages := ["__" ++ day_name ++ "__"]
  let messages := compressed.foldl
    (fun ms r =>
      if r.1 = r.2.1 then ms ++ ["**" ++ r.1 ++ "** — " ++ r.2.2]
      else ms ++ ["**" ++ r.1 ++ "–" ++ r.2.1 ++ "** — " ++ r.2.2]) messages
  String.intercalate "\n" messages

/-- The tail of `process_day` (source lines 138-148): empty compressed list
gives the empty string, otherwise the rendered day section. -/
def dayOutput (day_name : String) (compressed : List (String × String × String)) : String :=
  if compressed = [] then "" else formatLines day_name compressed

/-- `process_day`. -/
def processDay (day_name : String) (times : List String) (players : List Player) : String :=
  dayOutput day_name (compress (dayResults times players))

/-- `values[0].get("formattedValue", "").strip() if len(values) > 0 else ""`. -/
def dayCellOf (values : List Cell) : String :=
  if 0 < values.length then pyStrip (values.getD 0 emptyCell).formattedValue else ""

/-- `values[1].get("formattedValue", "").strip() if len(values) > 1 else ""`. -/
def playerNameOf (values : List Cell) : String :=
  if 1 < values.length then pyStrip (values.getD 1 emptyCell).formattedValue else ""

/-- `day_cell and day_cell.lower() not in ("dzień:", "kto:")`. -/
def isDayStart (dc : String) : Bool :=
  !(dc == "") && !(pyLower dc == "dzień:") && !(pyLower dc == "kto:")

/-- `not player_name or player_name.lower() in ("kto", "kto:")`. -/
def isPlayerSkip (pn : String) : Bool :=
  pn == "" || pyLower pn == "kto" || pyLower pn == "kto:"

/-- Truthiness of the `day_name` variable (initially `None`, and only ever
set to a stripped non-empty string). -/
def dayTruthy : Option String → Bool
  | none => false
  | some s => !(s == "")

/-- The player-status loop (source lines 77-83), with `col_idx` running over
`enumerate(times, start=2)`: a column beyond the row's length is skipped. -/
def buildPlayerStatusesAux (values : List Cell) :
    ℕ → List String → List (String × Status) → List (String × Status)
  | _, [], d => d
  | col_idx, time :: rest, d =>
    if col_idx < values.length then
      buildPlayerStatusesAux values (col_idx + 1) rest
        (dictInsert time (color_to_status (values.getD col_idx emptyCell).backgroundColor) d)
    else buildPlayerStatusesAux values (col_idx + 1) rest d

/-- `player_statuses` built for one data row. -/
def buildPlayerStatuses (times : List String) (values : List Cell) : List (String × Status) :=
  buildPlayerStatusesAux values 2 times []

/-- The flush block duplicated at source lines 68-71 and 86-89: if a day is
open and has players, append its summary to `week_summary` unless empty. -/
def flushDay (times : List String) (ws : List String) (dn : Option String)
    (ps : List Player) : List String :=
  if dayTruthy dn ∧ ps ≠ [] then
    if processDay (dn.getD "") times ps ≠ "" then ws ++ [processDay (dn.getD "") times ps] else ws
  else ws

/-- One iteration of the row loop of `build_week_message` (source lines
60-84) on the state `(week_summary, day_name, players)`. -/
def stepRow (times : List String) (st : List String × Option String × List Player)
    (row : Row) : List String × Option String × List Player :=
  let values := row.values
  if values = [] then st
  else
    let day_cell := dayCellOf values
    let player_name := playerNameOf values
    let st1 := if isDayStart day_cell then
        (flushDay times st.1 st.2.1 st.2.2, some day_cell, ([] : List Player))
      else st
    if isPlayerSkip player_name then st1
    else (st1.1, st1.2.1, st1.2.2 ++ [(player_name, buildPlayerStatuses times values)])

/-- The digest header `f"**Kalendarzyk grania na tydzień {WEEK_NUMBER}** \n\n"`. -/
def mkHeader (week_number : ℕ) : String :=
  "**Kalendarzyk grania na tydzień " ++ toString week_number ++ "** \n\n"

/-- `build_week_message`.  `WEEK_NUMBER` — the ISO week number of the moment
the process started — is an explicit parameter here because the source reads
it as a module-level global.  On an empty `rowData` the source evaluates
`rowData[0]` and raises `IndexError`; that is the `none` result. -/
def buildWeekMessage (week_number : ℕ) (rowData : List Row) : Option String :=
  match rowData with
  | [] => none
  | header :: rest =>
    let times := (header.values.drop 2).map (fun v => pyStrip v.formattedValue)
    let st := rest.foldl (stepRow times) ([], none, [])
    let week_summary := flushDay times st.1 st.2.1 st.2.2
    if week_summary = [] then some ""
    else some (mkHeader week_number ++ String.intercalate "\n\n" week_summary)

/-- Modelled from the spec (§4.4): maximal-run grouping of labelled slots.
The accumulator holds the open run as `(start, last, label)`; an absent
label ends the open run without being emitted; a differing label ends the
open run and opens a new one; input end emits the open run. -/
def runsAux (open_run : Option (String × String × String)) :
    List (String × Option String) → List (String × String × String)
  | [] =>
    match open_run with
    | some r => [r]
    | none => []
  | (t, osum) :: rest =>
    match open_run, osum with
    | none, none => runsAux none rest
    | none, some s => runsAux (some (t, t, s)) rest
    | some r, none => r :: runsAux none rest
    | some (st, la, lbl), some s =>
      if s = lbl then runsAux (some (st, t, lbl)) rest
      else (st, la, lbl) :: runsAux (some (t, t, s)) rest

/-- Modelled from the spec (§4.4): one `CompressedRange` per maximal run of
consecutive slots sharing the same present label, covering the run's first
and last slot, in slot order; absent labels are never covered. -/
def runs (labelled : List (String × Option String)) : List (String × String × String) :=
  runsAux none labelled

/-- Modelled from the spec (§4.2): the ordered list of `(day name, players)`
groups that the row loop flushes (including the final flush), starting from
loop state `(dn, ps)`.  Mirrors the branch structure of `stepRow` exactly,
recording flushed days instead of rendered summaries. -/
def flushedDays (times : List String) (dn : Option String) (ps : List Player) :
    List Row → List (String × List Player)
  | [] => if dayTruthy dn ∧ ps ≠ [] then [(dn.getD "", ps)] else []
  | row :: rest =>
    let values := row.values
    if values = [] then flushedDays times dn ps rest
    else
      let day_cell := dayCellOf values
      let player_name := playerNameOf values
      let fd1 := if isDayStart day_cell then
          ((if dayTruthy dn ∧ ps ≠ [] then [(dn.getD "", ps)] else []), some day_cell,
            ([] : List Player))
        else (([] : List (String × List Player)), dn, ps)
      let ps2 := if isPlayerSkip player_name then fd1.2.2
        else fd1.2.2 ++ [(player_name, buildPlayerStatuses times values)]
      fd1.1 ++ flushedDays times fd1.2.1 ps2 rest

/-- Modelled from the spec (§4.2 together with the claim): the largest column
index `c ≥ col_idx` among the remaining header labels such that the label at
that column equals `t` and `c` is inside a row of `nvals` cells; `none` when
no such column exists. -/
def lastHitAux (t : String) (nvals : ℕ) : ℕ → List String → Option ℕ
  | _, [] => none
  | col_idx, time :: rest =>
    match lastHitAux t nvals (col_idx + 1) rest with
    | some c => some c
    | none => if time = t ∧ col_idx < nvals then some col_idx else none

/-! ## Lemmas about the dict model -/

lemma dictLookup_insert {β : Type} (k k' : String) (v : β) (d : List (String × β)) :
    dictLookup k (dictInsert k' v d) = if k' = k then some v else dictLookup k d := by
  induction d with
  | nil => simp [dictInsert, dictLookup]
  | cons hd tl ih =>
    obtain ⟨k'', v''⟩ := hd
    by_cases h1 : k'' = k'
    · subst h1
      by_cases h2 : k'' = k <;> simp [dictInsert, dictLookup, h2]
    · by_cases h2 : k'' = k
      · subst h2
        simp [dictInsert, dictLookup, h1, Ne.symm h1]
      · simp [dictInsert, dictLookup, h1, h2, ih]

lemma dictGetD_insert {β : Type} (k k' : String) (v : β) (d : List (String × β)) (dflt : β) :
    dictGetD k (dictInsert k' v d) dflt = if k' = k then v else dictGetD k d dflt := by
  by_cases h : k' = k <;> simp [dictGetD, dictLookup_insert, h]

lemma dictInsert_idem {β : Type} (k : String) (v : β) (d : List (String × β)) :
    dictInsert k v (dictInsert k v d) = dictInsert k v d := by
  induction d with
  | nil => simp [dictInsert]
  | cons hd tl ih =>
    obtain ⟨k', v'⟩ := hd
    by_cases h : k' = k <;> simp [dictInsert, h, ih]

lemma mem_dictKeys_insert {β : Type} (a k : String) (v : β) (d : List (String × β)) :
    a ∈ dictKeys (dictInsert k v d) ↔ a = k ∨ a ∈ dictKeys d := by
  induction d with
  | nil => simp [dictInsert, dictKeys]
  | cons hd tl ih =>
    obtain ⟨k', v'⟩ := hd
    by_cases h : k' = k
    · subst h; simp [dictInsert, dictKeys]
    · simp only [dictInsert, if_neg h, dictKeys, List.map_cons, List.mem_cons]
      rw [show List.map (Prod.fst (β := β)) (dictInsert k v tl) = dictKeys (dictInsert k v tl)
        from rfl, ih]
      tauto

lemma dictInsert_length_new {β : Type} (k : String) (v : β) (d : List (String × β))
    (h : k ∉ dictKeys d) : (dictInsert k v d).length = d.length + 1 := by
  induction d with
  | nil => simp [dictInsert]
  | cons hd tl ih =>
    obtain ⟨k', v'⟩ := hd
    simp only [dictKeys, List.map_cons, List.mem_cons] at h
    push_neg at h
    have h1 : ¬ k' = k := Ne.symm h.1
    simp [dictInsert, h1, ih (by simpa [dictKeys] using h.2)]

/-! ## Lemmas about the color classifier -/

lemma closer_foldl (c : Color) :
    ∀ (l : List (Status × Color)) (b0 : Status) (m0 : Option ℚ),
      (∀ p ∈ l, ∃ m, (l.foldl (closer c) (b0, m0)).2 = some m
          ∧ m ≤ color_distance_sq c p.2)
      ∧ (∀ m0', m0 = some m0' → ∃ m, (l.foldl (closer c) (b0, m0)).2 = some m ∧ m ≤ m0')
      ∧ ((l.foldl (closer c) (b0, m0)) = (b0, m0)
          ∨ ∃ p ∈ l, (l.foldl (closer c) (b0, m0)).1 = p.1
              ∧ (l.foldl (closer c) (b0, m0)).2 = some (color_distance_sq c p.2)) := by
  intro l
  induction l with
  | nil =>
    intro b0 m0
    refine ⟨by simp, ?_, Or.inl rfl⟩
    intro m0' h
    exact ⟨m0', by simp [h], le_refl _⟩
  | cons hd tl ih =>
    intro b0 m0
    match m0 with
    | none =>
      have hstep : closer c (b0, none) hd = (hd.1, some (color_distance_sq c hd.2)) := rfl
      obtain ⟨ih1, ih2, ih3⟩ := ih hd.1 (some (color_distance_sq c hd.2))
      refine ⟨?_, ?_, ?_⟩
      · intro p hp
        rcases List.mem_cons.1 hp with h | h
        · subst h
          simpa [hstep] using ih2 (color_distance_sq c p.2) rfl
        · simpa [hstep] using ih1 p h
      · intro m0' h; exact absurd h (by simp)
      · rcases ih3 with h | ⟨p, hp, h1, h2⟩
        · refine Or.inr ⟨hd, List.mem_cons_self _ _, ?_⟩
          simp [List.foldl_cons, hstep, h]
        · exact Or.inr ⟨p, List.mem_cons_of_mem _ hp, by simpa [hstep] using h1,
            by simpa [hstep] using h2⟩
    | some m0' =>
      by_cases hlt : color_distance_sq c hd.2 < m0'
      · have hstep : closer c (b0, some m0') hd = (hd.1, some (color_distance_sq c hd.2)) := by
          simp [closer, hlt]
        obtain ⟨ih1, ih2, ih3⟩ := ih hd.1 (some (color_distance_sq c hd.2))
        refine ⟨?_, ?_, ?_⟩
        · intro p hp
          rcases List.mem_cons.1 hp with h | h
          · subst h
            simpa [hstep] using ih2 (color_distance_sq c p.2) rfl
          · simpa [hstep] using ih1 p h
        · intro m1 hm1
          obtain ⟨m, hm, hle⟩ := ih2 (color_distance_sq c hd.2) rfl
          refine ⟨m, by simpa [hstep] using hm, ?_⟩
          have : m0' = m1 := by injection hm1
          exact this ▸ (hle.trans hlt.le)
        · rcases ih3 with h | ⟨p, hp, h1, h2⟩
          · refine Or.inr ⟨hd, List.mem_cons_self _ _, ?_⟩
            simp [List.foldl_cons, hstep, h]
          · exact Or.inr ⟨p, List.mem_cons_of_mem _ hp, by simpa [hstep] using h1,
              by simpa [hstep] using h2⟩
      · have hstep : closer c (b0, some m0') hd = (b0, some m0') := by
          simp [closer, hlt]
        obtain ⟨ih1, ih2, ih3⟩ := ih b0 (some m0')
        refine ⟨?_, ?_, ?_⟩
        · intro p hp
          rcases List.mem_cons.1 hp with h | h
          · subst h
            obtain ⟨m, hm, hle⟩ := ih2 m0' rfl
            exact ⟨m, by simpa [hstep] using hm, hle.trans (not_lt.1 hlt)⟩
          · simpa [hstep] using ih1 p h
        · intro m1 hm1
          have : m0' = m1 := by injection hm1
          subst this
          simpa [hstep] using ih2 m0' rfl
        · rcases ih3 with h | ⟨p, hp, h1, h2⟩
          · exact Or.inl (by simp [List.foldl_cons, hstep, h])
          · exact Or.inr ⟨p, List.mem_cons_of_mem _ hp, by simpa [hstep] using h1,
              by simpa [hstep] using h2⟩

lemma refColor_of_mem {p : Status × Color} (hp : p ∈ REFERENCE_COLORS) :
    refColor p.1 = p.2 := by
  fin_cases hp <;> rfl

lemma mem_reference_colors (s : Status) : (s, refColor s) ∈ REFERENCE_COLORS := by
  cases s <;> simp [REFERENCE_COLORS, refColor]

/-- Each reference color classifies back to its own state. -/
lemma classify_refBg (s : Status) : color_to_status (some (refBg s)) = s := by
  cases s <;>
    norm_num [color_to_status, REFERENCE_COLORS, List.foldl, closer, normalize_color,
      color_distance_sq, refBg, Option.getD]

/-- A missing color object (`None`) classifies as `unknown`. -/
lemma classify_missing : color_to_status none = Status.unknown := by
  norm_num [color_to_status, REFERENCE_COLORS, List.foldl, closer, normalize_color,
    color_distance_sq, Option.getD]

/-- An empty color object (`{}`) classifies as `unknown`. -/
lemma classify_empty_bg : color_to_status (some ⟨none, none, none⟩) = Status.unknown := by
  norm_num [color_to_status, REFERENCE_COLORS, List.foldl, closer, normalize_color,
    color_distance_sq, Option.getD]

/-- Claim C8: `color_to_status` returns a state whose reference color is at
minimum Euclidean distance from the (normalized) input color among the four
reference colors; each of the four reference colors classifies to its own
state; and a missing (`None`) or empty (`{}`) color input is treated as
white `(1,1,1)` and classifies as `unknown`.  (Distances are compared as
squared distances, which is equivalent since the square root is strictly
monotone.) -/
theorem color_classification_nearest :
    (∀ (bg : Option BgColor) (s : Status),
      color_distance_sq (normalize_color (bg.getD ⟨none, none, none⟩))
          (refColor (color_to_status bg))
        ≤ color_distance_sq (normalize_color (bg.getD ⟨none, none, none⟩)) (refColor s))
    ∧ (∀ s : Status, color_to_status (some (refBg s)) = s)
    ∧ color_to_status none = Status.unknown
    ∧ color_to_status (some ⟨none, none, none⟩) = Status.unknown := by
  refine ⟨?_, classify_refBg, classify_missing, classify_empty_bg⟩
  · intro bg s
    set c := normalize_color (bg.getD ⟨none, none, none⟩) with hc
    have hval : color_to_status bg = (REFERENCE_COLORS.foldl (closer c) (Status.unknown, none)).1 := rfl
    obtain ⟨h1, _, h3⟩ := closer_foldl c REFERENCE_COLORS Status.unknown none
    rcases h3 with h | ⟨p, hp, hb, hm⟩
    · obtain ⟨m, hm, _⟩ := h1 (Status.available, (0, 1, 0)) (by simp [REFERENCE_COLORS])
      rw [h] at hm
      exact absurd hm (by simp)
    · obtain ⟨m, hm', hle⟩ := h1 (s, refColor s) (mem_reference_colors s)
      rw [hm] at hm'
      have hmm : color_distance_sq c p.2 = m := by injection hm'
      rw [hval, hb, refColor_of_mem hp]
      exact hmm ▸ hle

/-! ## Lemmas about range compression -/

lemma cLoop_runsAux :
    ∀ (xs : List (String × Option String)), (∀ p ∈ xs, p.2 ≠ some "") →
      (∀ (acc : List (String × String × String)) (lt : Option String),
        cLoop acc none none lt xs = acc ++ runsAux none xs)
      ∧ (∀ (acc : List (String × String × String)) (st p : String) (lt : String), p ≠ "" →
        cLoop acc (some st) (some p) (some lt) xs = acc ++ runsAux (some (st, lt, p)) xs) := by
  intro xs
  induction xs with
  | nil =>
    intro _
    constructor
    · intro acc lt; simp [cLoop, runsAux]
    · intro acc st p lt _; simp [cLoop, runsAux]
  | cons hd tl ih =>
    intro h
    obtain ⟨t, osum⟩ := hd
    obtain ⟨ih1, ih2⟩ := ih (fun p hp => h p (List.mem_cons_of_mem _ hp))
    have hhd : osum ≠ some "" := h (t, osum) (List.mem_cons_self _ _)
    constructor
    · intro acc lt
      match osum, hhd with
      | none, _ =>
        rw [show cLoop acc none none lt ((t, none) :: tl) = cLoop acc none none (some t) tl
          from by simp [cLoop]]
        rw [ih1 acc (some t)]
        simp [runsAux]
      | some s, hhd =>
        have hs : s ≠ "" := fun h' => hhd (by rw [h'])
        rw [show cLoop acc none none lt ((t, some s) :: tl)
            = cLoop acc (some t) (some s) (some t) tl
          from by simp [cLoop, hs]]
        rw [ih2 acc t s t hs]
        simp [runsAux]
    · intro acc st p lt hp
      match osum, hhd with
      | none, _ =>
        rw [show cLoop acc (some st) (some p) (some lt) ((t, none) :: tl)
            = cLoop (acc ++ [(st, lt, p)]) none none (some t) tl
          from by simp [cLoop]]
        rw [ih1 (acc ++ [(st, lt, p)]) (some t)]
        simp [runsAux]
      | some s, hhd =>
        have hs : s ≠ "" := fun h' => hhd (by rw [h'])
        by_cases hsp : s = p
        · subst hsp
          rw [show cLoop acc (some st) (some s) (some lt) ((t, some s) :: tl)
              = cLoop acc (some st) (some s) (some t) tl
            from by simp [cLoop, hs]]
          rw [ih2 acc st s t hs]
          simp [runsAux]
        · rw [show cLoop acc (some st) (some p) (some lt) ((t, some s) :: tl)
              = cLoop (acc ++ [(st, lt, p)]) (some t) (some s) (some t) tl
            from by simp [cLoop, hs, hsp]]
          rw [ih2 (acc ++ [(st, lt, p)]) t s t hs]
          simp [runsAux, hsp]

/-- Claim C5, counterexample: the compression loop tests Python truthiness
(`if not summary`), so a present but empty-string label is treated as
absent and produces no range, whereas the claim — one range per maximal run
of slots with the same non-absent label — demands the single range
`("s0", "s0", "")` here. -/
theorem compress_empty_label_cex :
    compress [("s0", some "")] = []
    ∧ runs [("s0", some "")] = [("s0", "s0", "")] := by
  constructor <;> rfl

/-- Claim C5 (amended: labels are non-empty strings, as every label the
engine produces is): compression emits, in slot order, exactly one range per
maximal run of consecutive slots with the same present label, covering that
run's first and last slot; slots with absent labels are never covered.
`runs` is the direct transcription of that description. -/
theorem compress_eq_maximal_runs (xs : List (String × Option String))
    (h : ∀ p ∈ xs, p.2 ≠ some "") : compress xs = runs xs :=
  (cLoop_runsAux xs h).1 [] none

/-- Claim C5, witness: the sequence `[A, A, absent, B, B]` compresses to
exactly the ranges `(s0-s1, A)` and `(s3-s4, B)`. -/
theorem compress_eq_maximal_runs_witness :
    compress [("s0", some "A"), ("s1", some "A"), ("s2", none),
        ("s3", some "B"), ("s4", some "B")]
      = [("s0", "s1", "A"), ("s3", "s4", "B")] :=
  (compress_eq_maximal_runs
    [("s0", some "A"), ("s1", some "A"), ("s2", none), ("s3", some "B"), ("s4", some "B")]
    (by decide)).trans (by rfl)

/-! ## Lemmas about day rendering -/

lemma formatLines_eq_map :
    ∀ (compressed : List (String × String × String)) (acc : List String),
      compressed.foldl
        (fun ms r =>
          if r.1 = r.2.1 then ms ++ ["**" ++ r.1 ++ "** — " ++ r.2.2]
          else ms ++ ["**" ++ r.1 ++ "–" ++ r.2.1 ++ "** — " ++ r.2.2]) acc
      = acc ++ compressed.map
          (fun r =>
            if r.1 = r.2.1 then "**" ++ r.1 ++ "** — " ++ r.2.2
            else "**" ++ r.1 ++ "–" ++ r.2.1 ++ "** — " ++ r.2.2) := by
  intro compressed
  induction compressed with
  | nil => intro acc; simp
  | cons hd tl ih =>
    intro acc
    by_cases h : hd.1 = hd.2.1 <;> simp [h, ih, List.append_assoc]

/-- Claim C6: for a non-empty compressed-range list, the day output is the
day-header line followed by exactly one line per range, in order; a
single-slot range is rendered from its one slot label alone (no
start-end pair), a multi-slot range joins start and end with an en dash. -/
theorem day_rendering (day_name : String) (compressed : List (String × String × String))
    (h : compressed ≠ []) :
    dayOutput day_name compressed
      = String.intercalate "\n" (("__" ++ day_name ++ "__") ::
          compressed.map
            (fun r =>
              if r.1 = r.2.1 then "**" ++ r.1 ++ "** — " ++ r.2.2
              else "**" ++ r.1 ++ "–" ++ r.2.1 ++ "** — " ++ r.2.2)) := by
  rw [dayOutput, if_neg h, formatLines, formatLines_eq_map]
  rfl

/-- Claim C6, witness: one single-slot range and one two-slot range. -/
theorem day_rendering_witness :
    dayOutput "Pon" [("18", "18", "L1"), ("19", "20", "L2")]
      = String.intercalate "\n" ["__Pon__", "**18** — L1", "**19–20** — L2"] :=
  (day_rendering "Pon" [("18", "18", "L1"), ("19", "20", "L2")] (by decide)).trans (by rfl)

/-! ## Lemmas about the per-slot availability dict -/

lemma availInit_fold_getD :
    ∀ (ts : List String) (d0 : List (String × List (String × Status))),
      (∀ k, dictGetD k d0 [] = []) →
      ∀ t, dictGetD t (ts.foldl (fun d t => dictInsert t ([] : List (String × Status)) d) d0) [] = [] := by
  intro ts
  induction ts with
  | nil => intro d0 h t; exact h t
  | cons t' rest ih =>
    intro d0 h t
    refine ih _ ?_ t
    intro k
    rw [dictGetD_insert]
    by_cases hk : t' = k <;> simp [hk, h k]

lemma availInit_getD (ts : List String) (t : String) : dictGetD t (availInit ts) [] = [] :=
  availInit_fold_getD ts [] (fun _ => rfl) t

lemma updPlayer_getD (p : Player) (t : String) :
    ∀ (ts : List String) (d : List (String × List (String × Status))),
      dictGetD t (updPlayer ts d p) []
        = if t ∈ ts then
            dictInsert p.1 (dictGetD t p.2 Status.unknown) (dictGetD t d [])
          else dictGetD t d [] := by
  intro ts
  induction ts with
  | nil => intro d; simp [updPlayer]
  | cons t' rest ih =>
    intro d
    have hstep : updPlayer (t' :: rest) d p
        = updPlayer rest
            (dictInsert t' (dictInsert p.1 (dictGetD t' p.2 Status.unknown) (dictGetD t' d [])) d)
            p := rfl
    rw [hstep, ih]
    by_cases h1 : t' = t
    · subst h1
      by_cases h2 : t' ∈ rest <;>
        simp [h2, dictGetD_insert, dictInsert_idem]
    · by_cases h2 : t ∈ rest <;>
        simp [h1, h2, dictGetD_insert, Ne.symm h1]

lemma availByTime_fold_getD (times : List String) (t : String) (ht : t ∈ times) :
    ∀ (players : List Player) (d : List (String × List (String × Status))),
      dictGetD t (players.foldl (updPlayer times) d) []
        = players.foldl
            (fun acc p => dictInsert p.1 (dictGetD t p.2 Status.unknown) acc)
            (dictGetD t d []) := by
  intro players
  induction players with
  | nil => intro d; rfl
  | cons p rest ih =>
    intro d
    rw [List.foldl_cons, List.foldl_cons, ih, updPlayer_getD, if_pos ht]

lemma slotStatuses_eq_simple (times : List String) (players : List Player) (t : String)
    (ht : t ∈ times) :
    slotStatuses times players t
      = (players.foldl
          (fun acc p => dictInsert p.1 (dictGetD t p.2 Status.unknown) acc) []).map Prod.snd := by
  rw [slotStatuses, availByTime, availByTime_fold_getD times t ht, availInit_getD]

lemma simpleFold_length (t : String) :
    ∀ (players : List Player) (acc : List (String × Status)),
      (players.map Prod.fst).Nodup →
      (∀ p ∈ players, p.1 ∉ dictKeys acc) →
      (players.foldl
        (fun acc p => dictInsert p.1 (dictGetD t p.2 Status.unknown) acc) acc).length
        = acc.length + players.length := by
  intro players
  induction players with
  | nil => intro acc _ _; simp
  | cons p rest ih =>
    intro acc hnd hdis
    rw [List.map_cons, List.nodup_cons] at hnd
    rw [List.foldl_cons]
    have hlen := dictInsert_length_new p.1 (dictGetD t p.2 Status.unknown) acc
      (hdis p (List.mem_cons_self _ _))
    have hdis' : ∀ q ∈ rest, q.1 ∉ dictKeys (dictInsert p.1 (dictGetD t p.2 Status.unknown) acc) := by
      intro q hq hmem
      rcases (mem_dictKeys_insert q.1 p.1 _ acc).1 hmem with h | h
      · exact hnd.1 (h ▸ List.mem_map_of_mem Prod.fst hq)
      · exact hdis q (List.mem_cons_of_mem _ hq) h
    rw [ih _ hnd.2 hdis', hlen, List.length_cons]
    omega

lemma count_four_states (l : List Status) :
    l.count Status.available + l.count Status.tentative
      + l.count Status.unavailable + l.count Status.unknown = l.length := by
  induction l with
  | nil => rfl
  | cons s rest ih => cases s <;> simp [List.count_cons] <;> omega

/-- Claim C2, counterexample: the per-slot tally is a dict keyed by player
name, so two player records sharing the name `"Ala"` collapse into one
entry; the four per-state counts sum to 1 while the day has 2 player
records, contradicting the claimed conservation. -/
theorem tally_duplicate_name_cex :
    (slotCounts ["18:00"] [("Ala", []), ("Ala", [])] "18:00").available
        + (slotCounts ["18:00"] [("Ala", []), ("Ala", [])] "18:00").tentative
        + (slotCounts ["18:00"] [("Ala", []), ("Ala", [])] "18:00").unavailable
        + (slotCounts ["18:00"] [("Ala", []), ("Ala", [])] "18:00").unknown = 1
    ∧ ([("Ala", []), ("Ala", [])] : List Player).length = 2 := by
  constructor <;> rfl

/-- Claim C2 (amended: the day's player names are pairwise distinct — when
they are not, records sharing a name collapse into a single tally entry and
the sum equals the number of distinct names instead): for every slot, the
four per-state counts of the slot tally sum to the day's player count. -/
theorem tally_conservation (times : List String) (players : List Player) (t : String)
    (ht : t ∈ times) (hnd : (players.map Prod.fst).Nodup) :
    (slotCounts times players t).available + (slotCounts times players t).tentative
        + (slotCounts times players t).unavailable + (slotCounts times players t).unknown
      = players.length := by
  have hss := slotStatuses_eq_simple times players t ht
  have hc : slotCounts times players t
      = ⟨(slotStatuses times players t).count Status.available,
         (slotStatuses times players t).count Status.tentative,
         (slotStatuses times players t).count Status.unavailable,
         (slotStatuses times players t).count Status.unknown⟩ := rfl
  rw [hc]
  show (slotStatuses times players t).count Status.available
      + (slotStatuses times players t).count Status.tentative
      + (slotStatuses times players t).count Status.unavailable
      + (slotStatuses times players t).count Status.unknown = players.length
  rw [count_four_states, hss, List.length_map]
  have := simpleFold_length t players [] hnd (by simp [dictKeys])
  simpa using this

/-- Claim C2, witness: two distinctly-named players, one slot. -/
theorem tally_conservation_witness :
    (slotCounts ["18:00"] [("Ala", []), ("Ola", [])] "18:00").available
        + (slotCounts ["18:00"] [("Ala", []), ("Ola", [])] "18:00").tentative
        + (slotCounts ["18:00"] [("Ala", []), ("Ola", [])] "18:00").unavailable
        + (slotCounts ["18:00"] [("Ala", []), ("Ola", [])] "18:00").unknown
      = ([("Ala", []), ("Ola", [])] : List Player).length :=
  tally_conservation ["18:00"] [("Ala", []), ("Ola", [])] "18:00" (by decide) (by decide)

/-- Claim C3: for a day with at least one player, every entry of the
per-slot results list carries exactly the label dictated by the claimed
precedence: "all available" when the available count equals the player
count; otherwise the "possible" label when the available count is exactly 2
and the tentative count exactly 1 (whatever the player count); otherwise no
label. -/
theorem qualification_precedence (times : List String) (players : List Player)
    (_hne : players ≠ []) (p : String × Option String) (hp : p ∈ dayResults times players) :
    p.2 = if (slotCounts times players p.1).available = players.length then some allLabel
          else if (slotCounts times players p.1).available = 2
              ∧ (slotCounts times players p.1).tentative = 1 then
            some (possibleLabel players.length)
          else none := by
  rw [dayResults] at hp
  obtain ⟨t, ht, rfl⟩ := List.mem_map.1 hp
  rfl

/-- Claim C3, witness: three players, all available at the sole slot. -/
theorem qualification_precedence_witness :
    (("18:00", some allLabel) : String × Option String).2
      = if (slotCounts ["18:00"]
            [("P1", [("18:00", Status.available)]), ("P2", [("18:00", Status.available)]),
              ("P3", [("18:00", Status.available)])] "18:00").available
          = ([("P1", [("18:00", Status.available)]), ("P2", [("18:00", Status.available)]),
              ("P3", [("18:00", Status.available)])] : List Player).length then some allLabel
        else if (slotCounts ["18:00"]
            [("P1", [("18:00", Status.available)]), ("P2", [("18:00", Status.available)]),
              ("P3", [("18:00", Status.available)])] "18:00").available = 2
            ∧ (slotCounts ["18:00"]
            [("P1", [("18:00", Status.available)]), ("P2", [("18:00", Status.available)]),
              ("P3", [("18:00", Status.available)])] "18:00").tentative = 1 then
          some (possibleLabel ([("P1", [("18:00", Status.available)]),
            ("P2", [("18:00", Status.available)]),
            ("P3", [("18:00", Status.available)])] : List Player).length)
        else none :=
  qualification_precedence ["18:00"]
    [("P1", [("18:00", Status.available)]), ("P2", [("18:00", Status.available)]),
      ("P3", [("18:00", Status.available)])]
    (by decide) ("18:00", some allLabel) (by decide)

/-! ## Lemmas about duplicate header labels -/

lemma buildPlayerStatusesAux_lookup (t : String) (values : List Cell) :
    ∀ (ts : List String) (col : ℕ) (d : List (String × Status)),
      dictLookup t (buildPlayerStatusesAux values col ts d)
        = match lastHitAux t values.length col ts with
          | some c => some (color_to_status (values.getD c emptyCell).backgroundColor)
          | none => dictLookup t d := by
  intro ts
  induction ts with
  | nil => intro col d; simp [buildPlayerStatusesAux, lastHitAux]
  | cons time rest ih =>
    intro col d
    by_cases hcol : col < values.length
    · rw [show buildPlayerStatusesAux values col (time :: rest) d
          = buildPlayerStatusesAux values (col + 1) rest
              (dictInsert time
                (color_to_status (values.getD col emptyCell).backgroundColor) d)
        from by simp [buildPlayerStatusesAux, hcol]]
      rw [ih]
      rw [show lastHitAux t values.length col (time :: rest)
          = match lastHitAux t values.length (col + 1) rest with
            | some c => some c
            | none => if time = t ∧ col < values.length then some col else none
        from rfl]
      match lastHitAux t values.length (col + 1) rest with
      | some c => rfl
      | none =>
        rw [dictLookup_insert]
        by_cases htt : time = t <;> simp [htt, hcol]
    · rw [show buildPlayerStatusesAux values col (time :: rest) d
          = buildPlayerStatusesAux values (col + 1) rest d
        from by simp [buildPlayerStatusesAux, hcol]]
      rw [ih]
      rw [show lastHitAux t values.length col (time :: rest)
          = match lastHitAux t values.length (col + 1) rest with
            | some c => some c
            | none => if time = t ∧ col < values.length then some col else none
        from rfl]
      match lastHitAux t values.length (col + 1) rest with
      | some c => rfl
      | none => simp [hcol]

/-- Claim C10, counterexample: header labels `["A", "A"]` (columns 2 and 3)
with a 3-cell data row whose column 2 carries the green reference color.
The rightmost duplicate column (index 3) lies beyond the row, so nothing is
classified from it; the recorded state under `"A"` is `available`, taken
from the earlier duplicate column 2 — the claim says the earlier column is
overwritten and never influences the record, and (with the spec's
absent-column-means-unknown rule) would demand `unknown` here. -/
theorem duplicate_header_short_row_cex :
    dictLookup "A" (buildPlayerStatuses ["A", "A"]
        [⟨"Pon", none⟩, ⟨"Ala", none⟩, ⟨"", some (refBg Status.available)⟩])
      = some Status.available
    ∧ Status.available ≠ Status.unknown
    ∧ ([⟨"Pon", none⟩, ⟨"Ala", none⟩, ⟨"", some (refBg Status.available)⟩] : List Cell).length
        = 3 := by
  refine ⟨?_, by decide, rfl⟩
  show dictLookup "A" (buildPlayerStatusesAux
      [⟨"Pon", none⟩, ⟨"Ala", none⟩, ⟨"", some (refBg Status.available)⟩] 2 ["A", "A"] []) = _
  rw [show buildPlayerStatusesAux
        [⟨"Pon", none⟩, ⟨"Ala", none⟩, ⟨"", some (refBg Status.available)⟩] 2 ["A", "A"] []
      = [("A", color_to_status (some (refBg Status.available)))]
    from by simp [buildPlayerStatusesAux, dictInsert]]
  rw [classify_refBg]
  rfl

/-- Claim C10 (amended: "rightmost such column" means the rightmost
duplicate column whose index lies within the row — a duplicate column
beyond the row's length is skipped, so the state then comes from the
rightmost in-row duplicate, and if no duplicate column is in the row the
label is absent from the record): the state recorded under a header label
is the classification of the cell at the last column `c ≥ 2` with that
(trimmed) label and `c < len(values)`; and every occurrence of a duplicated
label in the per-slot results sequence carries the same summary. -/
theorem duplicate_header_rightmost_in_row :
    (∀ (times : List String) (values : List Cell) (t : String),
      dictLookup t (buildPlayerStatuses times values)
        = Option.map (fun c => color_to_status (values.getD c emptyCell).backgroundColor)
            (lastHitAux t values.length 2 times))
    ∧ (∀ (times : List String) (players : List Player) (p q : String × Option String),
        p ∈ dayResults times players → q ∈ dayResults times players → p.1 = q.1 →
          p.2 = q.2) := by
  constructor
  · intro times values t
    rw [buildPlayerStatuses, buildPlayerStatusesAux_lookup]
    match lastHitAux t values.length 2 times with
    | some c => rfl
    | none => rfl
  · intro times players p q hp hq hpq
    rw [dayResults] at hp hq
    obtain ⟨tp, _, rfl⟩ := List.mem_map.1 hp
    obtain ⟨tq, _, rfl⟩ := List.mem_map.1 hq
    simp only at hpq
    simp [hpq]

/-- Claim C10, witness: instantiates both parts on concrete inputs (the
duplicated header `["A", "A"]` against a 3-cell row, and a duplicated slot
in the results sequence). -/
theorem duplicate_header_rightmost_in_row_witness :
    (dictLookup "A" (buildPlayerStatuses ["A", "A"]
        [⟨"Pon", none⟩, ⟨"Ala", none⟩, ⟨"x", none⟩])
      = Option.map
          (fun c => color_to_status
            (([⟨"Pon", none⟩, ⟨"Ala", none⟩, ⟨"x", none⟩] : List Cell).getD c
              emptyCell).backgroundColor)
          (lastHitAux "A" 3 2 ["A", "A"]))
    ∧ ((("18", none) : String × Option String).2 = (("18", none) : String × Option String).2) :=
  ⟨by
    have h := duplicate_header_rightmost_in_row.1 ["A", "A"]
      [⟨"Pon", none⟩, ⟨"Ala", none⟩, ⟨"x", none⟩] "A"
    simpa using h,
   duplicate_header_rightmost_in_row.2 ["18", "18"] [("P", [])] ("18", none) ("18", none)
     (by decide) (by decide) rfl⟩

/-! ## Lemmas about the row loop of the week-message builder -/

lemma flushDay_eq_filter (times : List String) (ws : List String) (dn : Option String)
    (ps : List Player) :
    flushDay times ws dn ps
      = ws ++ ((if dayTruthy dn ∧ ps ≠ [] then [(dn.getD "", ps)] else []).map
          (fun d => processDay d.1 times d.2)).filter (fun s => !(s == "")) := by
  by_cases h : dayTruthy dn ∧ ps ≠ []
  · rw [flushDay, if_pos h, if_pos h]
    by_cases hds : processDay (dn.getD "") times ps = ""
    · have hbeq : (processDay (dn.getD "") times ps == "") = true := beq_iff_eq.2 hds
      simp [List.filter, hds, hbeq]
    · have hbeq : (processDay (dn.getD "") times ps == "") = false := beq_eq_false_iff_ne.2 hds
      simp [List.filter, hds, hbeq]
  · rw [flushDay, if_neg h, if_neg h]
    simp

lemma loop_flush_eq (times : List String) :
    ∀ (rows : List Row) (ws : List String) (dn : Option String) (ps : List Player),
      flushDay times (rows.foldl (stepRow times) (ws, dn, ps)).1
          (rows.foldl (stepRow times) (ws, dn, ps)).2.1
          (rows.foldl (stepRow times) (ws, dn, ps)).2.2
        = ws ++ ((flushedDays times dn ps rows).map
            (fun d => processDay d.1 times d.2)).filter (fun s => !(s == "")) := by
  intro rows
  induction rows with
  | nil =>
    intro ws dn ps
    rw [List.foldl_nil]
    exact flushDay_eq_filter times ws dn ps
  | cons row rest ih =>
    intro ws dn ps
    rw [List.foldl_cons]
    by_cases hv : row.values = []
    · rw [show stepRow times (ws, dn, ps) row = (ws, dn, ps) from by simp [stepRow, hv]]
      rw [ih]
      rw [show flushedDays times dn ps (row :: rest) = flushedDays times dn ps rest
        from by simp [flushedDays, hv]]
    · by_cases hd : isDayStart (dayCellOf row.values)
      · by_cases hp : isPlayerSkip (playerNameOf row.values)
        · rw [show stepRow times (ws, dn, ps) row
              = (flushDay times ws dn ps, some (dayCellOf row.values), ([] : List Player))
            from by simp [stepRow, hv, hd, hp]]
          rw [ih]
          rw [show flushedDays times dn ps (row :: rest)
              = (if dayTruthy dn ∧ ps ≠ [] then [(dn.getD "", ps)] else [])
                  ++ flushedDays times (some (dayCellOf row.values)) ([] : List Player) rest
            from by simp [flushedDays, hv, hd, hp]]
          rw [List.map_append, List.filter_append, flushDay_eq_filter, List.append_assoc]
        · rw [show stepRow times (ws, dn, ps) row
              = (flushDay times ws dn ps, some (dayCellOf row.values),
                  [(playerNameOf row.values, buildPlayerStatuses times row.values)])
            from by simp [stepRow, hv, hd, hp]]
          rw [ih]
          rw [show flushedDays times dn ps (row :: rest)
              = (if dayTruthy dn ∧ ps ≠ [] then [(dn.getD "", ps)] else [])
                  ++ flushedDays times (some (dayCellOf row.values))
                      [(playerNameOf row.values, buildPlayerStatuses times row.values)] rest
            from by simp [flushedDays, hv, hd, hp]]
          rw [List.map_append, List.filter_append, flushDay_eq_filter, List.append_assoc]
      · by_cases hp : isPlayerSkip (playerNameOf row.values)
        · rw [show stepRow times (ws, dn, ps) row = (ws, dn, ps)
            from by simp [stepRow, hv, hd, hp]]
          rw [ih]
          rw [show flushedDays times dn ps (row :: rest) = flushedDays times dn ps rest
            from by simp [flushedDays, hv, hd, hp]]
        · rw [show stepRow times (ws, dn, ps) row
              = (ws, dn, ps ++ [(playerNameOf row.values, buildPlayerStatuses times row.values)])
            from by simp [stepRow, hv, hd, hp]]
          rw [ih]
          rw [show flushedDays times dn ps (row :: rest)
              = flushedDays times dn
                  (ps ++ [(playerNameOf row.values, buildPlayerStatuses times row.values)]) rest
            from by simp [flushedDays, hv, hd, hp]]

/-- Claim C1: with fewer than 2 rows the engine is supposed to degrade to an
empty digest without error.  The code does so for a one-row input (second
conjunct), but on an empty row sequence it evaluates `rowData[0]` and raises
`IndexError` — modelled as the `none` result (first conjunct) — instead of
returning the empty digest the claim and the spec promise. -/
theorem week_message_fewer_than_two_rows :
    (∀ week_number : ℕ, buildWeekMessage week_number [] = none)
    ∧ (∀ (week_number : ℕ) (header : Row), buildWeekMessage week_number [header] = some "") := by
  constructor
  · intro w; rfl
  · intro w header
    simp [buildWeekMessage, flushDay, dayTruthy]

/-- Claim C4: a data row whose day-marker cell starts a new day (non-empty,
not a header literal) and whose player-name cell is a real player name
(non-empty, not a header literal) both flushes the previous day and becomes
the new current day holding exactly that row's player record — the record is
neither dropped nor left with the previous day. -/
theorem day_row_shared_contribution (times : List String)
    (st : List String × Option String × List Player) (row : Row)
    (hv : row.values ≠ [])
    (hd : isDayStart (dayCellOf row.values) = true)
    (hp : isPlayerSkip (playerNameOf row.values) = false) :
    stepRow times st row
      = (flushDay times st.1 st.2.1 st.2.2, some (dayCellOf row.values),
          [(playerNameOf row.values, buildPlayerStatuses times row.values)]) := by
  rw [stepRow]
  simp [hv, hd, hp]

/-- Claim C4, witness: a row naming day `"Poniedziałek"` and player `"Ala"`. -/
theorem day_row_shared_contribution_witness :
    stepRow ["18:00"] ([], none, []) ⟨[⟨"Poniedziałek", none⟩, ⟨"Ala", none⟩]⟩
      = (flushDay ["18:00"] [] none [], some "Poniedziałek",
          [("Ala", buildPlayerStatuses ["18:00"] [⟨"Poniedziałek", none⟩, ⟨"Ala", none⟩])]) :=
  day_row_shared_contribution ["18:00"] ([], none, []) ⟨[⟨"Poniedziałek", none⟩, ⟨"Ala", none⟩]⟩
    (by decide) (by decide) (by decide)

/-- Claim C7: a day whose compressed range list is empty produces the empty
string (no header-only text), and a grid in which every flushed day's
summary is empty produces the digest `""` (falsy), not a header-only
string. -/
theorem empty_result_propagation :
    (∀ (day_name : String) (times : List String) (players : List Player),
      compress (dayResults times players) = [] → processDay day_name times players = "")
    ∧ (∀ (week_number : ℕ) (header : Row) (rows : List Row),
        (∀ d ∈ flushedDays ((header.values.drop 2).map (fun v => pyStrip v.formattedValue))
            none [] rows,
          processDay d.1 ((header.values.drop 2).map (fun v => pyStrip v.formattedValue)) d.2
            = "") →
        buildWeekMessage week_number (header :: rows) = some "") := by
  constructor
  · intro dn times players h
    rw [processDay, h, dayOutput, if_pos rfl]
  · intro w header rows hall
    have hfil : ((flushedDays ((header.values.drop 2).map (fun v => pyStrip v.formattedValue))
        none [] rows).map
          (fun d => processDay d.1
            ((header.values.drop 2).map (fun v => pyStrip v.formattedValue)) d.2)).filter
          (fun s => !(s == "")) = [] := by
      rw [List.filter_eq_nil_iff]
      intro a ha
      obtain ⟨d, hdm, rfl⟩ := List.mem_map.1 ha
      rw [hall d hdm]
      simp
    have hbridge := loop_flush_eq ((header.values.drop 2).map (fun v => pyStrip v.formattedValue))
      rows [] none []
    rw [hfil] at hbridge
    simp only [buildWeekMessage]
    rw [hbridge]
    rfl

/-- Claim C7, witness: a one-day grid whose single slot qualifies for no
label (the lone player has no colored cells), so the day flushes with an
empty summary and the digest is the empty string. -/
theorem empty_result_propagation_witness :
    buildWeekMessage 7 [⟨[⟨"Dzień:", none⟩, ⟨"Kto:", none⟩, ⟨"18:00", none⟩]⟩,
        ⟨[⟨"Poniedziałek", none⟩, ⟨"Ala", none⟩]⟩] = some "" :=
  empty_result_propagation.2 7 ⟨[⟨"Dzień:", none⟩, ⟨"Kto:", none⟩, ⟨"18:00", none⟩]⟩
    [⟨[⟨"Poniedziałek", none⟩, ⟨"Ala", none⟩]⟩] (by decide)

/-- Claim C9, counterexample: the digest is not a function of the grid
alone — the module-level `WEEK_NUMBER`, taken from the current date at
process start, is interpolated into the digest header, so the same grid
produces different digests in different weeks. -/
theorem digest_depends_on_week_number :
    buildWeekMessage 1 [⟨[⟨"Dzień:", none⟩, ⟨"Kto:", none⟩, ⟨"18:00", none⟩]⟩,
        ⟨[⟨"Poniedziałek", none⟩, ⟨"Ala", none⟩, ⟨"", some (refBg Status.available)⟩]⟩]
      ≠ buildWeekMessage 2 [⟨[⟨"Dzień:", none⟩, ⟨"Kto:", none⟩, ⟨"18:00", none⟩]⟩,
        ⟨[⟨"Poniedziałek", none⟩, ⟨"Ala", none⟩, ⟨"", some (refBg Status.available)⟩]⟩] := by
  have hps : buildPlayerStatuses ["18:00"]
      [⟨"Poniedziałek", none⟩, ⟨"Ala", none⟩, ⟨"", some (refBg Status.available)⟩]
      = [("18:00", color_to_status (some (refBg Status.available)))] := rfl
  rw [classify_refBg] at hps
  have hstep : ∀ w : ℕ, buildWeekMessage w
      [⟨[⟨"Dzień:", none⟩, ⟨"Kto:", none⟩, ⟨"18:00", none⟩]⟩,
        ⟨[⟨"Poniedziałek", none⟩, ⟨"Ala", none⟩, ⟨"", some (refBg Status.available)⟩]⟩]
      = some (mkHeader w ++ ("__Poniedziałek__\n**18:00** — " ++ allLabel)) := by
    intro w
    have hfold : List.foldl (stepRow ["18:00"]) ([], none, [])
        [⟨[⟨"Poniedziałek", none⟩, ⟨"Ala", none⟩, ⟨"", some (refBg Status.available)⟩]⟩]
        = ([], some "Poniedziałek",
            [("Ala", buildPlayerStatuses ["18:00"]
              [⟨"Poniedziałek", none⟩, ⟨"Ala", none⟩, ⟨"", some (refBg Status.available)⟩])]) :=
      rfl
    rw [hps] at hfold
    simp only [buildWeekMessage]
    rw [show (List.map (fun v => pyStrip v.formattedValue)
        (List.drop 2 [(⟨"Dzień:", none⟩ : Cell), ⟨"Kto:", none⟩, ⟨"18:00", none⟩]))
      = ["18:00"] from rfl]
    rw [hfold]
    rfl
  rw [hstep 1, hstep 2]
  decide

/-- Claim C9 (amended: each run is a pure function of the input grid *and*
the ambient ISO week number; with the week number fixed the digest depends
only on the row data, and the week number affects only the constant digest
header — two runs on the same grid in different weeks return digests that
are either both empty or share the same body after their respective
headers): any two successful runs on the same grid agree up to the header's
week number. -/
theorem digest_pure_up_to_week_header (w1 w2 : ℕ) (rows : List Row) (s1 s2 : String)
    (h1 : buildWeekMessage w1 rows = some s1) (h2 : buildWeekMessage w2 rows = some s2) :
    (s1 = "" ∧ s2 = "") ∨ ∃ body, s1 = mkHeader w1 ++ body ∧ s2 = mkHeader w2 ++ body := by
  match rows with
  | [] => exact absurd h1 (by simp [buildWeekMessage])
  | header :: rest =>
    simp only [buildWeekMessage] at h1 h2
    by_cases hws : flushDay
        ((header.values.drop 2).map (fun v => pyStrip v.formattedValue))
        (rest.foldl (stepRow ((header.values.drop 2).map (fun v => pyStrip v.formattedValue)))
          ([], none, [])).1
        (rest.foldl (stepRow ((header.values.drop 2).map (fun v => pyStrip v.formattedValue)))
          ([], none, [])).2.1
        (rest.foldl (stepRow ((header.values.drop 2).map (fun v => pyStrip v.formattedValue)))
          ([], none, [])).2.2 = []
    · rw [if_pos hws] at h1 h2
      exact Or.inl ⟨(Option.some.inj h1).symm, (Option.some.inj h2).symm⟩
    · rw [if_neg hws] at h1 h2
      exact Or.inr ⟨_, (Option.some.inj h1).symm, (Option.some.inj h2).symm⟩

/-- Claim C9, witness: two runs on the same (header-only) grid in weeks 1
and 2 both return the empty digest. -/
theorem digest_pure_up_to_week_header_witness :
    (("" : String) = "" ∧ ("" : String) = "")
    ∨ ∃ body, ("" : String) = mkHeader 1 ++ body ∧ ("" : String) = mkHeader 2 ++ body :=
  digest_pure_up_to_week_header 1 2 [⟨[]⟩] "" "" (by rfl) (by rfl)
